import Mathlib

/-!
Verification of the schema annotation engine of bson-schema-to-typescript.

The engine lives in src/compile.ts (buildTsType, addTsType, hasDecimal128,
DEFAULT_OPTIONS, compileBSON) and in the configuration loader
(parseConfig).  JSON values are embedded as the inductive type Json below;
JavaScript objects are modelled as ordered association lists of string keys,
the shape Object.entries exposes.  Numeric values never influence the engine
(they are only carried around), so JSON numbers are embedded as integers.
-/

inductive Json where
  | str (s : String)
  | num (n : Int)
  | bool (b : Bool)
  | null
  | arr (xs : List Json)
  | obj (fields : List (String × Json))

mutual
/-- Structural equality of JSON values, modelling the strict equality used by
the source on JSON leaves and Array.prototype.includes. -/
def beqJson : Json → Json → Bool
  | .str a, .str b => a == b
  | .num a, .num b => a == b
  | .bool a, .bool b => a == b
  | .null, .null => true
  | .arr a, .arr b => beqJsonList a b
  | .obj a, .obj b => beqJsonFields a b
  | _, _ => false
def beqJsonList : List Json → List Json → Bool
  | [], [] => true
  | x :: xs, y :: ys => beqJson x y && beqJsonList xs ys
  | _, _ => false
def beqJsonFields : List (String × Json) → List (String × Json) → Bool
  | [], [] => true
  | (k1, v1) :: r1, (k2, v2) :: r2 => k1 == k2 && beqJson v1 v2 && beqJsonFields r1 r2
  | _, _ => false
end

instance : BEq Json := ⟨beqJson⟩

theorem beqJson_def (a b : Json) : (a == b) = beqJson a b := rfl

/-- JavaScript property lookup on an object: the value under the first
occurrence of the key, if any. -/
def lookupJson (k : String) : List (String × Json) → Option Json
  | [] => none
  | (k1, v) :: rest => if k1 == k then some v else lookupJson k rest

/-- JavaScript key-presence test on an object (the in operator, Reflect.has). -/
def hasKeyFields (k : String) : List (String × Json) → Bool
  | [] => false
  | (k1, _) :: rest => k1 == k || hasKeyFields k rest

/-- The entries of an object node (empty for non-objects). -/
def objFields : Json → List (String × Json)
  | .obj o => o
  | _ => []

/-- typeof v === "object" in JavaScript: true on objects, arrays and null. -/
def isObjectTypeof : Json → Bool
  | .arr _ => true
  | .obj _ => true
  | .null => true
  | _ => false

/-- The bsonToTs table of src/compile.ts: the fixed BSON-to-TypeScript map. -/
def bsonToTs : List (String × String) :=
  [("number", "number"),
   ("string", "string"),
   ("bool", "boolean"),
   ("date", "Date"),
   ("null", "null"),
   ("decimal", "Decimal128")]

/-- First-match lookup in a string table (Map.prototype.get; undefined when
absent, modelled as none). -/
def tableLookup : List (String × String) → String → Option String
  | [], _ => none
  | (k, v) :: rest, s => if k == s then some v else tableLookup rest s

/-- The JavaScript coercion x || null applied to a possibly-absent string:
undefined and the empty string are falsy and collapse to null. -/
def orNull : Option String → Option String
  | none => none
  | some t => if t == "" then none else some t

/-- Array.prototype.join("|") on an array of nullable strings: null entries
are rendered as the empty string. -/
def joinBar : List (Option String) → String
  | [] => ""
  | [o] => o.getD ""
  | o :: rest => o.getD "" ++ "|" ++ joinBar rest

mutual
/-- buildTsType of src/compile.ts: an array marker maps every element
recursively and joins the results with a bar; a string marker is looked up
in bsonToTs (with the || null coercion); anything else yields null. -/
def buildTsType : Json → Option String
  | .arr xs => some (joinBar (buildTsTypeList xs))
  | .str s => orNull (tableLookup bsonToTs s)
  | _ => none
def buildTsTypeList : List Json → List (Option String)
  | [] => []
  | x :: xs => buildTsType x :: buildTsTypeList xs
end

/-- Truthiness of the computed hint in the guard !isEnum && tsType: null and
the empty string are falsy. -/
def truthyHint : Option String → Bool
  | none => false
  | some t => !(t == "")

/-- The object spread update of the source, here applied after the entry
values have been rebuilt: when the key already exists its binding is
overwritten in place (spread keeps the position of an existing key),
otherwise the new binding is appended at the end. -/
def insertKey (o : List (String × Json)) (k : String) (v : Json) : List (String × Json) :=
  if hasKeyFields k o then o.map (fun p => if p.1 == k then (k, v) else p)
  else o ++ [(k, v)]

mutual
/-- addTsType of src/compile.ts.  Arrays are rebuilt element-wise.  On an
object the source first forms v = !isEnum && tsType ? (spread of the node
with the tsType hint) : node, then rebuilds v entry by entry applying the
recursion to every value (Object.entries of a JavaScript object lists
pairwise-distinct keys in order, so the reduce with a spread accumulator is
the order-preserving value map annotFields).  The injected hint is a plain
string, on which the recursion is the identity; inserting it after the
original entries have been rebuilt therefore yields exactly the same object
as the source order of operations, with the same overwrite-in-place or
append-at-end placement as the spread. -/
def addTsType : Json → Json
  | .arr xs => .arr (addTsTypeList xs)
  | .obj o =>
      let hint := (lookupJson "bsonType" o).bind buildTsType
      let isEnum := hasKeyFields "enum" o
      if !isEnum && truthyHint hint then
        .obj (insertKey (annotFields o) "tsType" (.str (hint.getD "")))
      else
        .obj (annotFields o)
  | j => j
def addTsTypeList : List Json → List Json
  | [] => []
  | x :: xs => addTsType x :: addTsTypeList xs
def annotFields : List (String × Json) → List (String × Json)
  | [] => []
  | (k, v) :: rest => (k, addTsType v) :: annotFields rest
end

/-- Array.prototype.includes("decimal") on a JSON array: strict equality
against the string "decimal", element by element. -/
def containsStrDecimal : List Json → Bool
  | [] => false
  | x :: xs => x == Json.str "decimal" || containsStrDecimal xs

mutual
/-- hasDecimal128 of src/compile.ts.  Scalars and null give false; arrays are
scanned element-wise; on an object every entry is tested: under the bsonType
key the string "decimal" hits, an array value is tested by literal
membership only, and any other object-typed value (typeof, so including
null) is scanned recursively; the same typeof recursion applies to every
other key. -/
def hasDecimal128 : Json → Bool
  | .arr xs => hasDecimal128Arr xs
  | .obj o => hasDecimal128Fields o
  | _ => false
def hasDecimal128Arr : List Json → Bool
  | [] => false
  | x :: xs => hasDecimal128 x || hasDecimal128Arr xs
def hasDecimal128Fields : List (String × Json) → Bool
  | [] => false
  | (k, v) :: rest =>
      (if k == "bsonType" then
        if v == Json.str "decimal" then true
        else
          match v with
          | .arr xs => containsStrDecimal xs
          | _ => if isObjectTypeof v then hasDecimal128 v else false
      else if isObjectTypeof v then hasDecimal128 v else false)
      || hasDecimal128Fields rest
end

/-- The callback of the .some over Object.entries, named for reasoning:
under the bsonType key a literal "decimal" or literal array membership
decides immediately; otherwise any object-typed value is scanned
recursively. -/
def hasDecimal128Entry (k : String) (v : Json) : Bool :=
  if k == "bsonType" then
    if v == Json.str "decimal" then true
    else
      match v with
      | .arr xs => containsStrDecimal xs
      | _ => if isObjectTypeof v then hasDecimal128 v else false
  else if isObjectTypeof v then hasDecimal128 v else false

theorem hasDecimal128Fields_cons (k : String) (v : Json) (rest : List (String × Json)) :
    hasDecimal128Fields ((k, v) :: rest) =
      (hasDecimal128Entry k v || hasDecimal128Fields rest) := rfl

/-- Induction over the nested Json type, exposing membership hypotheses for
the children of arrays and objects. -/
theorem Json.indOn (P : Json → Prop)
    (hs : ∀ s, P (Json.str s)) (hn : ∀ n, P (Json.num n))
    (hb : ∀ b, P (Json.bool b)) (hnull : P Json.null)
    (ha : ∀ xs, (∀ x ∈ xs, P x) → P (Json.arr xs))
    (ho : ∀ o, (∀ p ∈ o, P p.2) → P (Json.obj o)) :
    ∀ j, P j := fun j =>
  match j with
  | .str s => hs s
  | .num n => hn n
  | .bool b => hb b
  | .null => hnull
  | .arr xs => ha xs (fun x hx =>
      have : sizeOf x < 1 + sizeOf xs := by
        have := List.sizeOf_lt_of_mem hx
        omega
      Json.indOn P hs hn hb hnull ha ho x)
  | .obj o => ho o (fun p hp =>
      have : sizeOf p.2 < 1 + sizeOf o := by
        have h1 := List.sizeOf_lt_of_mem hp
        have h2 : sizeOf p.2 < sizeOf p := by
          cases p with
          | mk a b => simp only [Prod.mk.sizeOf_spec]; omega
        omega
      Json.indOn P hs hn hb hnull ha ho p.2)
termination_by j => sizeOf j

theorem beqJsonList_iff (xs : List Json)
    (ih : ∀ x ∈ xs, ∀ b, beqJson x b = true ↔ x = b) :
    ∀ ys, beqJsonList xs ys = true ↔ xs = ys := by
  induction xs with
  | nil => intro ys; cases ys <;> simp [beqJsonList]
  | cons x xs ihl =>
    intro ys
    cases ys with
    | nil => simp [beqJsonList]
    | cons y ys =>
      have hx := ih x (by simp)
      have ht := ihl (fun z hz b => ih z (by simp [hz]) b) ys
      simp [beqJsonList, Bool.and_eq_true, hx, ht]

theorem beqJsonFields_iff (o : List (String × Json))
    (ih : ∀ p ∈ o, ∀ b, beqJson p.2 b = true ↔ p.2 = b) :
    ∀ o2, beqJsonFields o o2 = true ↔ o = o2 := by
  induction o with
  | nil => intro o2; cases o2 <;> simp [beqJsonFields]
  | cons p o ihl =>
    intro o2
    cases o2 with
    | nil => cases p; simp [beqJsonFields]
    | cons q o2 =>
      cases p with
      | mk k1 v1 =>
        cases q with
        | mk k2 v2 =>
          have hv := ih (k1, v1) (by simp)
          have ht := ihl (fun z hz b => ih z (by simp [hz]) b) o2
          simp [beqJsonFields, Bool.and_eq_true, hv, ht, Prod.ext_iff, and_assoc]

theorem beqJson_iff : ∀ a b : Json, beqJson a b = true ↔ a = b := by
  intro a
  induction a using Json.indOn with
  | hs s => intro b; cases b <;> simp [beqJson]
  | hn n => intro b; cases b <;> simp [beqJson]
  | hb v => intro b; cases b <;> simp [beqJson]
  | hnull => intro b; cases b <;> simp [beqJson]
  | ha xs ih =>
    intro b
    cases b <;> simp [beqJson]
    exact beqJsonList_iff xs ih _
  | ho o ih =>
    intro b
    cases b <;> simp [beqJson]
    exact beqJsonFields_iff o ih _

instance : LawfulBEq Json where
  eq_of_beq h := (beqJson_iff _ _).1 h
  rfl := (beqJson_iff _ _).2 rfl

instance : DecidableEq Json := fun a b => decidable_of_iff (beqJson a b = true) (beqJson_iff a b)

/-- True exactly on JSON arrays (Array.isArray). -/
def isArrJson : Json → Bool
  | .arr _ => true
  | _ => false

/-- True when the value is an array with the literal string "decimal" among
its elements. -/
def arrayContainsDecimal : Json → Bool
  | .arr xs => containsStrDecimal xs
  | _ => false

/-- A single object node carries the decimal marker: some bsonType entry
equals "decimal" or is an array containing "decimal".  This is the
node-local test of the DependencyDetector specification. -/
def markerHitAny (o : List (String × Json)) : Bool :=
  o.any (fun p => p.1 == "bsonType" && (p.2 == Json.str "decimal" || arrayContainsDecimal p.2))

mutual
/-- The detector as the claim words it: some object node reachable through
object values and array elements, at any depth, carries the decimal
marker. -/
def reachDecimalSpec : Json → Bool
  | .arr xs => reachDecimalSpecArr xs
  | .obj o => markerHitAny o || reachDecimalSpecVals o
  | _ => false
def reachDecimalSpecArr : List Json → Bool
  | [] => false
  | x :: xs => reachDecimalSpec x || reachDecimalSpecArr xs
def reachDecimalSpecVals : List (String × Json) → Bool
  | [] => false
  | (_, v) :: rest => reachDecimalSpec v || reachDecimalSpecVals rest
end

mutual
/-- The amended reachability reading of the detector: as reachDecimalSpec,
except that an array sitting directly under a bsonType key is tested only by
literal membership at the node itself and is not descended into. -/
def reachDecimalAdj : Json → Bool
  | .arr xs => reachDecimalAdjArr xs
  | .obj o => markerHitAny o || reachDecimalAdjVals o
  | _ => false
def reachDecimalAdjArr : List Json → Bool
  | [] => false
  | x :: xs => reachDecimalAdj x || reachDecimalAdjArr xs
def reachDecimalAdjVals : List (String × Json) → Bool
  | [] => false
  | (k, v) :: rest =>
      (if k == "bsonType" && isArrJson v then false else reachDecimalAdj v)
      || reachDecimalAdjVals rest
end

mutual
/-- No object node anywhere in the tree carries the reserved hint key
tsType. -/
def noTsTypeKey : Json → Bool
  | .arr xs => noTsTypeKeyArr xs
  | .obj o => noTsTypeKeyVals o
  | _ => true
def noTsTypeKeyArr : List Json → Bool
  | [] => true
  | x :: xs => noTsTypeKey x && noTsTypeKeyArr xs
def noTsTypeKeyVals : List (String × Json) → Bool
  | [] => true
  | (k, v) :: rest => !(k == "tsType") && noTsTypeKey v && noTsTypeKeyVals rest
end

/-- Joins character lists with a separator character between consecutive
parts. -/
def intercalateChar (c : Char) : List (List Char) → List Char
  | [] => []
  | [p] => p
  | p :: rest => p ++ c :: intercalateChar c rest

/-- Splits a character list at every occurrence of the separator. -/
def charSplit (c : Char) : List Char → List (List Char)
  | [] => [[]]
  | x :: xs =>
    match charSplit c xs with
    | [] => [[]]
    | h :: t => if x == c then [] :: h :: t else (x :: h) :: t

/-- A type hint mentions the Decimal128 target type when one of its
bar-separated union components is exactly the name Decimal128; a missing
hint mentions nothing. -/
def mentionsDecimal : Option String → Bool
  | none => false
  | some s => (charSplit '|' s.toList).contains "Decimal128".toList

/-- Marker values for which the amended TypeMapper/DependencyDetector
agreement is stated: scalars, and arrays all of whose elements are
strings. -/
def markerFlat : Json → Bool
  | .arr xs => xs.all (fun x => match x with | .str _ => true | _ => false)
  | .obj _ => false
  | _ => true

/-- The option record of compileBSON.  The dollar-prefixed field of the
source is named refOptions here (Lean identifiers cannot hold a dollar
sign); its value and the style field are opaque pass-through JSON data.
process.cwd() is an environment read and enters as the cwd argument. -/
structure CompileOptions where
  refOptions : Json
  bannerComment : List String
  cwd : String
  declareExternallyReferenced : Bool
  enableConstEnums : Bool
  ignoreMinAndMaxItems : Bool
  strictIndexSignatures : Bool
  style : Json
  unreachableDefinitions : Bool
  unknownAny : Bool
deriving DecidableEq

/-- The fixed banner lines of DEFAULT_OPTIONS (shared with the
configuration loader defaults). -/
def defaultBannerLines : List String :=
  ["/* eslint-disable */",
   "/* tslint:disable */",
   "/**",
   "* This file was automatically generated by bson-schema-to-typescript.",
   "* DO NOT MODIFY IT BY HAND. Instead, modify the source JSONSchema file,",
   "* and run bson-schema-to-typescript to regenerate this file.",
   "*/"]

/-- DEFAULT_OPTIONS of src/compile.ts. -/
def DEFAULT_OPTIONS (cwd : String) : CompileOptions where
  refOptions := .obj []
  bannerComment := defaultBannerLines
  cwd := cwd
  declareExternallyReferenced := true
  enableConstEnums := true
  ignoreMinAndMaxItems := false
  strictIndexSignatures := false
  style := .null
  unreachableDefinitions := false
  unknownAny := true

/-- Partial (caller-supplied) options: a field is none when the caller did
not pass that key. -/
structure PartialCompileOptions where
  refOptions : Option Json := none
  bannerComment : Option (List String) := none
  cwd : Option String := none
  declareExternallyReferenced : Option Bool := none
  enableConstEnums : Option Bool := none
  ignoreMinAndMaxItems : Option Bool := none
  strictIndexSignatures : Option Bool := none
  style : Option Json := none
  unreachableDefinitions : Option Bool := none
  unknownAny : Option Bool := none
deriving DecidableEq

/-- The spread merge of compileBSON: a key present in the caller options
overrides the default, an absent key keeps the default. -/
def mergeOptions (d : CompileOptions) (p : PartialCompileOptions) : CompileOptions where
  refOptions := p.refOptions.getD d.refOptions
  bannerComment := p.bannerComment.getD d.bannerComment
  cwd := p.cwd.getD d.cwd
  declareExternallyReferenced := p.declareExternallyReferenced.getD d.declareExternallyReferenced
  enableConstEnums := p.enableConstEnums.getD d.enableConstEnums
  ignoreMinAndMaxItems := p.ignoreMinAndMaxItems.getD d.ignoreMinAndMaxItems
  strictIndexSignatures := p.strictIndexSignatures.getD d.strictIndexSignatures
  style := p.style.getD d.style
  unreachableDefinitions := p.unreachableDefinitions.getD d.unreachableDefinitions
  unknownAny := p.unknownAny.getD d.unknownAny

/-- The option record handed to the external generic compiler: the merged
options with the banner collapsed to a single string. -/
structure FinalCompileOptions where
  refOptions : Json
  bannerComment : String
  cwd : String
  declareExternallyReferenced : Bool
  enableConstEnums : Bool
  ignoreMinAndMaxItems : Bool
  strictIndexSignatures : Bool
  style : Json
  unreachableDefinitions : Bool
  unknownAny : Bool
deriving DecidableEq

/-- The one import line appended when the schema uses the decimal type. -/
def decimalImportLine : String := "import \x7b Decimal128 \x7d from \x27bson\x27;"

/-- Replaces the banner of merged options by its joined form. -/
def finalCompileOptions (m : CompileOptions) (banner : String) : FinalCompileOptions where
  refOptions := m.refOptions
  bannerComment := banner
  cwd := m.cwd
  declareExternallyReferenced := m.declareExternallyReferenced
  enableConstEnums := m.enableConstEnums
  ignoreMinAndMaxItems := m.ignoreMinAndMaxItems
  strictIndexSignatures := m.strictIndexSignatures
  style := m.style
  unreachableDefinitions := m.unreachableDefinitions
  unknownAny := m.unknownAny

/-- compileBSON of src/compile.ts.  The external generic compiler is a black
box and enters as the compileJSON parameter; the awaited delegation is the
final application.  The source scans the original schema, not the annotated
one, for the import decision. -/
def compileBSON (compileJSON : Json → String → FinalCompileOptions → String)
    (cwd : String) (schema : Json) (options : PartialCompileOptions) : String :=
  let newSchema := addTsType schema
  let mergedOptions := mergeOptions (DEFAULT_OPTIONS cwd) options
  let imports := if hasDecimal128 schema then [decimalImportLine] else []
  let opts := finalCompileOptions mergedOptions
      (String.intercalate "\n" (mergedOptions.bannerComment ++ imports))
  compileJSON newSchema "" opts

namespace Config

/-- The env block of the configuration options. -/
structure EnvNames where
  MONGODB_URI : String
  MONGODB_DATABASE : String
deriving DecidableEq

/-- The Options type of the configuration loader. -/
structure Options where
  bannerComment : List String
  enableConstEnums : Bool
  ignoreMinAndMaxItems : Bool
  strictIndexSignatures : Bool
  unknownAny : Bool
  path : String
  env : EnvNames
deriving DecidableEq

/-- defaultOptions of the configuration loader. -/
def defaultOptions : Options where
  bannerComment := defaultBannerLines
  enableConstEnums := true
  ignoreMinAndMaxItems := false
  strictIndexSignatures := false
  unknownAny := true
  path := "src/__generated__"
  env := { MONGODB_URI := "MONGODB_URI", MONGODB_DATABASE := "MONGODB_DATABASE" }

/-- Array.isArray plus an every-element typeof check: the extracted strings
when every element is a string, none otherwise. -/
def allStrings : List Json → Option (List String)
  | [] => some []
  | .str s :: rest => (allStrings rest).map (fun l => s :: l)
  | _ => none

/-- parseConfig applied to the outcome of JSON.parse (error when the parse
threw).  A parse failure and a non-plain-object config both land in the
catch handler and yield the full defaults; otherwise every recognized field
is validated on its own, falling back to its individual default when the
value has the wrong type. -/
def parseConfigJson : Except String Json → Options
  | .error _ => defaultOptions
  | .ok j =>
    match j with
    | .obj fields =>
        { bannerComment :=
            match lookupJson "bannerComment" fields with
            | some (.arr xs) =>
                match allStrings xs with
                | some l => l
                | none => defaultOptions.bannerComment
            | _ => defaultOptions.bannerComment
          enableConstEnums :=
            match lookupJson "enableConstEnums" fields with
            | some (.bool b) => b
            | _ => defaultOptions.enableConstEnums
          ignoreMinAndMaxItems :=
            match lookupJson "ignoreMinAndMaxItems" fields with
            | some (.bool b) => b
            | _ => defaultOptions.ignoreMinAndMaxItems
          strictIndexSignatures :=
            match lookupJson "strictIndexSignatures" fields with
            | some (.bool b) => b
            | _ => defaultOptions.strictIndexSignatures
          unknownAny :=
            match lookupJson "unknownAny" fields with
            | some (.bool b) => b
            | _ => defaultOptions.unknownAny
          path :=
            match lookupJson "path" fields with
            | some (.str s) => s
            | _ => defaultOptions.path
          env :=
            match lookupJson "env" fields with
            | some (.obj envFields) =>
                { MONGODB_URI :=
                    match lookupJson "MONGODB_URI" envFields with
                    | some (.str s) => s
                    | _ => defaultOptions.env.MONGODB_URI
                  MONGODB_DATABASE :=
                    match lookupJson "MONGODB_DATABASE" envFields with
                    | some (.str s) => s
                    | _ => defaultOptions.env.MONGODB_DATABASE }
            | _ => defaultOptions.env }
    | _ => defaultOptions

/-- parseConfig over the raw text: JSON.parse lives in the JavaScript
runtime and enters as the abstract jsonParse parameter. -/
def parseConfig (jsonParse : String → Except String Json) (config : String) : Options :=
  parseConfigJson (jsonParse config)

end Config

-- sanity checks of the embedding against hand-evaluated source behavior
example : buildTsType (.arr [.str "string", .str "bool"]) = some "string|boolean" := by decide
example : buildTsType (.arr [.str "number", .str "bogus"]) = some "number|" := by decide
example : buildTsType (.arr [.str "bogus", .str "bogus2"]) = some "|" := by decide
example : buildTsType (.arr [.str "bogus"]) = some "" := by decide
example : buildTsType (.str "date") = some "Date" := by decide
example : buildTsType (.num 3) = none := by decide
example :
    addTsType (.obj [("bsonType", .str "number"), ("enum", .arr [.num 1, .num 2, .num 3])]) =
      .obj [("bsonType", .str "number"), ("enum", .arr [.num 1, .num 2, .num 3])] := by decide
example :
    addTsType (.obj [("bsonType", .str "bool")]) =
      .obj [("bsonType", .str "bool"), ("tsType", .str "boolean")] := by decide
example :
    addTsType (.obj [("tsType", .null), ("bsonType", .str "bool")]) =
      .obj [("tsType", .str "boolean"), ("bsonType", .str "bool")] := by decide
example : hasDecimal128 (.obj [("bsonType", .str "decimal")]) = true := by decide
example : hasDecimal128 (.obj [("bsonType", .arr [.obj [("bsonType", .str "decimal")]])]) = false := by decide
example : hasDecimal128 (.obj [("a", .arr [.obj [("bsonType", .str "decimal")]])]) = true := by decide

-- additional sanity checks
example : mentionsDecimal (some "boolean|Decimal128") = true := by decide
example : mentionsDecimal (some "number|") = false := by decide
example : mentionsDecimal (some "Decimal128") = true := by decide
example : Config.parseConfigJson (.ok (.obj [("path", .num 123)])) = Config.defaultOptions := by decide

/-! ### Helper lemmas -/

theorem addTsTypeList_eq (xs : List Json) : addTsTypeList xs = xs.map addTsType := by
  induction xs with
  | nil => rfl
  | cons x xs ih => simp [addTsTypeList, ih]

theorem addTsType_obj (o : List (String × Json)) :
    addTsType (.obj o) =
      if !hasKeyFields "enum" o
          && truthyHint ((lookupJson "bsonType" o).bind buildTsType) then
        .obj (insertKey (annotFields o) "tsType"
          (.str (((lookupJson "bsonType" o).bind buildTsType).getD "")))
      else
        .obj (annotFields o) := by
  simp [addTsType]

theorem lookup_annotFields (k : String) (o : List (String × Json)) :
    lookupJson k (annotFields o) = (lookupJson k o).map addTsType := by
  induction o with
  | nil => rfl
  | cons p rest ih =>
    cases p with
    | mk k1 v =>
      by_cases h : (k1 == k) = true <;> simp [annotFields, lookupJson, h, ih]

theorem hasKey_annotFields (k : String) (o : List (String × Json)) :
    hasKeyFields k (annotFields o) = hasKeyFields k o := by
  induction o with
  | nil => rfl
  | cons p rest ih =>
    cases p with
    | mk k1 v => simp [annotFields, hasKeyFields, ih]

theorem hasKey_append (k : String) (l1 l2 : List (String × Json)) :
    hasKeyFields k (l1 ++ l2) = (hasKeyFields k l1 || hasKeyFields k l2) := by
  induction l1 with
  | nil => simp [hasKeyFields]
  | cons p rest ih =>
    cases p with
    | mk k1 v => simp [hasKeyFields, ih, Bool.or_assoc]

theorem lookup_append_ne (k k0 : String) (v : Json) (l : List (String × Json))
    (h : (k0 == k) = false) :
    lookupJson k (l ++ [(k0, v)]) = lookupJson k l := by
  induction l with
  | nil => simp [lookupJson, h]
  | cons p rest ih =>
    cases p with
    | mk k1 w => by_cases h1 : (k1 == k) = true <;> simp [lookupJson, h1, ih]

theorem lookup_map_replace_ne (k k0 : String) (v : Json) (l : List (String × Json))
    (h : (k0 == k) = false) :
    lookupJson k (l.map (fun p => if p.1 == k0 then (k0, v) else p)) = lookupJson k l := by
  induction l with
  | nil => rfl
  | cons p rest ih =>
    cases p with
    | mk k1 w =>
      simp only [List.map_cons]
      by_cases h0 : (k1 == k0) = true
      · rw [if_pos h0]
        have hk1 : k1 = k0 := by simpa using h0
        subst hk1
        simp only [lookupJson, h]
        exact ih
      · rw [if_neg h0]
        simp only [lookupJson]
        rw [ih]

theorem lookup_insertKey_ne (k k0 : String) (v : Json) (l : List (String × Json))
    (h : (k0 == k) = false) :
    lookupJson k (insertKey l k0 v) = lookupJson k l := by
  unfold insertKey
  by_cases hh : hasKeyFields k0 l = true
  · rw [if_pos hh]
    exact lookup_map_replace_ne k k0 v l h
  · rw [if_neg hh]
    exact lookup_append_ne k k0 v l h

theorem hasKey_map_replace (k k0 : String) (v : Json) (l : List (String × Json)) :
    hasKeyFields k (l.map (fun p => if p.1 == k0 then (k0, v) else p)) =
      hasKeyFields k l := by
  induction l with
  | nil => rfl
  | cons p rest ih =>
    cases p with
    | mk k1 w =>
      simp only [List.map_cons]
      by_cases h0 : (k1 == k0) = true
      · rw [if_pos h0]
        have hk1 : k1 = k0 := by simpa using h0
        subst hk1
        simp only [hasKeyFields]
        rw [ih]
      · rw [if_neg h0]
        simp only [hasKeyFields]
        rw [ih]

theorem hasKey_insertKey_self (k0 : String) (v : Json) (l : List (String × Json)) :
    hasKeyFields k0 (insertKey l k0 v) = true := by
  unfold insertKey
  by_cases hh : hasKeyFields k0 l = true
  · rw [if_pos hh, hasKey_map_replace]
    exact hh
  · rw [if_neg hh, hasKey_append]
    simp [hasKeyFields]

theorem hasKey_insertKey_ne (k k0 : String) (v : Json) (l : List (String × Json))
    (h : (k0 == k) = false) :
    hasKeyFields k (insertKey l k0 v) = hasKeyFields k l := by
  unfold insertKey
  by_cases hh : hasKeyFields k0 l = true
  · rw [if_pos hh, hasKey_map_replace]
  · rw [if_neg hh, hasKey_append]
    simp [hasKeyFields, h]

theorem isObjectTypeof_addTsType (v : Json) :
    isObjectTypeof (addTsType v) = isObjectTypeof v := by
  cases v <;> first
    | rfl
    | (rw [addTsType_obj]; split <;> rfl)

theorem beq_strDecimal_addTsType (v : Json) :
    (addTsType v == Json.str "decimal") = (v == Json.str "decimal") := by
  cases v <;> first
    | rfl
    | (rw [addTsType_obj]; split <;> rfl)

theorem containsStrDecimal_annot (xs : List Json) :
    containsStrDecimal (addTsTypeList xs) = containsStrDecimal xs := by
  induction xs with
  | nil => rfl
  | cons x xs ih => simp [addTsTypeList, containsStrDecimal, ih, beq_strDecimal_addTsType]

theorem hasDecimal128Fields_append_tsStr (t : String) (l : List (String × Json)) :
    hasDecimal128Fields (l ++ [("tsType", Json.str t)]) = hasDecimal128Fields l := by
  induction l with
  | nil => simp [hasDecimal128Fields, isObjectTypeof, beqJson]
  | cons p rest ih =>
    cases p with
    | mk k v => simp [hasDecimal128Fields, ih]

theorem addTsType_obj_shape (o : List (String × Json)) :
    ∃ l, addTsType (.obj o) = .obj l := by
  rw [addTsType_obj]
  split <;> exact ⟨_, rfl⟩

theorem noTsVals_hasKey (o : List (String × Json)) (h : noTsTypeKeyVals o = true) :
    hasKeyFields "tsType" o = false := by
  induction o with
  | nil => rfl
  | cons p rest ih =>
    cases p with
    | mk k v =>
      simp only [noTsTypeKeyVals, Bool.and_eq_true, Bool.not_eq_true'] at h
      simp [hasKeyFields, h.1.1, ih h.2]

theorem noTsVals_mem (o : List (String × Json)) (h : noTsTypeKeyVals o = true) :
    ∀ p ∈ o, noTsTypeKey p.2 = true := by
  induction o with
  | nil => intro p hp; cases hp
  | cons q rest ih =>
    cases q with
    | mk k v =>
      simp only [noTsTypeKeyVals, Bool.and_eq_true] at h
      intro p hp
      rcases List.mem_cons.1 hp with h1 | h2
      · subst h1; exact h.1.2
      · exact ih h.2 p h2

theorem noTsArr_mem (xs : List Json) (h : noTsTypeKeyArr xs = true) :
    ∀ x ∈ xs, noTsTypeKey x = true := by
  induction xs with
  | nil => intro x hx; cases hx
  | cons y rest ih =>
    simp only [noTsTypeKeyArr, Bool.and_eq_true] at h
    intro x hx
    rcases List.mem_cons.1 hx with h1 | h2
    · subst h1; exact h.1
    · exact ih h.2 x h2

theorem hasDecimal128Entry_annot (k : String) (v : Json)
    (ihv : hasDecimal128 (addTsType v) = hasDecimal128 v) :
    hasDecimal128Entry k (addTsType v) = hasDecimal128Entry k v := by
  cases v with
  | str s => rfl
  | num n => rfl
  | bool b => rfl
  | null => rfl
  | arr xs =>
    show hasDecimal128Entry k (.arr (addTsTypeList xs)) = hasDecimal128Entry k (.arr xs)
    have h1 : hasDecimal128 (Json.arr (addTsTypeList xs)) = hasDecimal128 (Json.arr xs) := ihv
    by_cases hk : (k == "bsonType") = true <;>
      simp [hasDecimal128Entry, hk, beqJson, isObjectTypeof, containsStrDecimal_annot, h1]
  | obj o =>
    obtain ⟨l, hl⟩ := addTsType_obj_shape o
    rw [hl]
    have h2 : hasDecimal128 (Json.obj l) = hasDecimal128 (Json.obj o) := by
      rw [← hl]; exact ihv
    by_cases hk : (k == "bsonType") = true <;>
      simp [hasDecimal128Entry, hk, beqJson, isObjectTypeof, h2]

theorem hasDecimal128Fields_annot (o : List (String × Json))
    (ih : ∀ p ∈ o, hasDecimal128 (addTsType p.2) = hasDecimal128 p.2) :
    hasDecimal128Fields (annotFields o) = hasDecimal128Fields o := by
  induction o with
  | nil => rfl
  | cons p rest ihl =>
    cases p with
    | mk k v =>
      have hv := ih (k, v) (by simp)
      have hrest := ihl (fun q hq => ih q (by simp [hq]))
      show hasDecimal128Fields ((k, addTsType v) :: annotFields rest) = _
      rw [hasDecimal128Fields_cons, hasDecimal128Fields_cons, hrest,
        hasDecimal128Entry_annot k v hv]

theorem hasDecimal128Arr_annot (xs : List Json)
    (ih : ∀ x ∈ xs, hasDecimal128 (addTsType x) = hasDecimal128 x) :
    hasDecimal128Arr (addTsTypeList xs) = hasDecimal128Arr xs := by
  induction xs with
  | nil => rfl
  | cons x rest ihl =>
    have hx := ih x (by simp)
    have hrest := ihl (fun y hy => ih y (by simp [hy]))
    show hasDecimal128Arr (addTsType x :: addTsTypeList rest) = _
    simp only [hasDecimal128Arr]
    rw [hx, hrest]

/-- Claim C7 (amended): detection commutes with annotation on every schema
tree none of whose object nodes already carries the reserved hint key
tsType.  Annotation then only appends plain string hints, which the detector
ignores, and every bsonType marker is untouched.  (Without the proviso the
hint insertion can overwrite a preexisting tsType subtree that itself holds
the decimal marker, changing the detector verdict.) -/
theorem hasDecimal128_addTsType :
    ∀ s : Json, noTsTypeKey s = true → hasDecimal128 (addTsType s) = hasDecimal128 s := by
  intro s
  induction s using Json.indOn with
  | hs s => intro _; rfl
  | hn n => intro _; rfl
  | hb b => intro _; rfl
  | hnull => intro _; rfl
  | ha xs ih =>
    intro h
    have hmem := noTsArr_mem xs h
    show hasDecimal128 (.arr (addTsTypeList xs)) = hasDecimal128 (.arr xs)
    simp only [hasDecimal128]
    exact hasDecimal128Arr_annot xs (fun x hx => ih x hx (hmem x hx))
  | ho o ih =>
    intro h
    have hvals := noTsVals_mem o h
    have hkey : hasKeyFields "tsType" o = false := noTsVals_hasKey o h
    have hfields : hasDecimal128Fields (annotFields o) = hasDecimal128Fields o :=
      hasDecimal128Fields_annot o (fun p hp => ih p hp (hvals p hp))
    have hkeyA : hasKeyFields "tsType" (annotFields o) = false := by
      rw [hasKey_annotFields]; exact hkey
    rw [addTsType_obj]
    split
    · unfold insertKey
      rw [if_neg (by simp [hkeyA])]
      show hasDecimal128Fields (annotFields o ++ [("tsType", _)]) = hasDecimal128 (.obj o)
      rw [hasDecimal128Fields_append_tsStr, hfields]
      rfl
    · show hasDecimal128Fields (annotFields o) = hasDecimal128 (.obj o)
      rw [hfields]
      rfl

theorem buildTsTypeList_eq (xs : List Json) : buildTsTypeList xs = xs.map buildTsType := by
  induction xs with
  | nil => rfl
  | cons x xs ih => simp [buildTsTypeList, ih]

theorem intercalate_go_append (s : String) :
    ∀ (as : List String) (x y : String),
      String.intercalate.go (x ++ y) s as = x ++ String.intercalate.go y s as := by
  intro as
  induction as with
  | nil => intro x y; rfl
  | cons a as ih =>
    intro x y
    show String.intercalate.go (x ++ y ++ s ++ a) s as
        = x ++ String.intercalate.go (y ++ s ++ a) s as
    rw [String.append_assoc (x ++ y) s a, String.append_assoc x y (s ++ a),
      ← String.append_assoc y s a]
    exact ih x (y ++ s ++ a)

theorem joinBar_eq_intercalate (l : List (Option String)) :
    joinBar l = String.intercalate "|" (l.map (fun o => o.getD "")) := by
  induction l with
  | nil => rfl
  | cons o rest ih =>
    cases rest with
    | nil => rfl
    | cons o2 rest2 =>
      show o.getD "" ++ "|" ++ joinBar (o2 :: rest2) = _
      rw [ih]
      show _ = String.intercalate.go (o.getD "") "|" (o2.getD "" :: rest2.map (fun o => o.getD ""))
      show _ = String.intercalate.go (o.getD "" ++ "|" ++ o2.getD "") "|"
                (rest2.map (fun o => o.getD ""))
      rw [intercalate_go_append "|" (rest2.map (fun o => o.getD "")) (o.getD "" ++ "|") (o2.getD "")]
      show _ = o.getD "" ++ "|" ++ String.intercalate "|" (o2.getD "" :: rest2.map (fun o => o.getD ""))
      rfl

/-- Claim C1 (amended): for an array-valued marker, buildTsType maps each
element independently and joins the results with a bar preserving order, but
an element whose mapping is missing is rendered as the empty string rather
than dropped: the union of string and bool is string-bar-boolean, while the
union of number and an unknown name keeps a trailing bar. -/
theorem buildTsType_array_join :
    (∀ xs : List Json,
      buildTsType (.arr xs) =
        some (String.intercalate "|" (xs.map (fun e => (buildTsType e).getD ""))))
    ∧ buildTsType (.arr [.str "string", .str "bool"]) = some "string|boolean"
    ∧ buildTsType (.arr [.str "number", .str "bogus"]) = some "number|" := by
  refine ⟨?_, by decide, by decide⟩
  intro xs
  show some (joinBar (buildTsTypeList xs)) = _
  rw [joinBar_eq_intercalate, buildTsTypeList_eq, List.map_map]
  rfl

/-- Claim C1 counterexample: unknown names in an array marker are not
dropped silently; mapping number and an unknown name does not yield the
plain name number. -/
theorem buildTsType_array_join_cex :
    buildTsType (.arr [.str "number", .str "bogus"]) ≠ some "number" := by decide

/-- Claim C2 (amended): the annotated node carries a tsType key exactly when
the input node already carried one, or the node is not an enum and its
computed hint is truthy (a nonempty string).  An entirely-unknown scalar
marker or singleton array marker yields no key, but an entirely-unknown
array marker of two or more names joins to a nonempty all-bars string that
is injected. -/
theorem addTsType_hint_presence :
    ∀ o : List (String × Json),
      hasKeyFields "tsType" (objFields (addTsType (.obj o))) =
        (hasKeyFields "tsType" o
          || (!hasKeyFields "enum" o
              && truthyHint ((lookupJson "bsonType" o).bind buildTsType))) := by
  intro o
  rw [addTsType_obj]
  by_cases hc : (!hasKeyFields "enum" o
      && truthyHint ((lookupJson "bsonType" o).bind buildTsType)) = true
  · rw [if_pos hc]
    show hasKeyFields "tsType" (insertKey (annotFields o) "tsType" _) = _
    rw [hasKey_insertKey_self, hc]
    simp
  · rw [if_neg hc]
    show hasKeyFields "tsType" (annotFields o) = _
    rw [hasKey_annotFields]
    rw [eq_false_of_ne_true hc, Bool.or_false]

/-- Claim C2 counterexample: an array marker of two unknown names maps
entirely to no mapping, the input node has no tsType key, and yet the
annotated node does carry one (holding the all-bars string). -/
theorem addTsType_hint_presence_cex :
    buildTsTypeList [Json.str "bogus", Json.str "bogus2"] = [none, none]
    ∧ hasKeyFields "tsType" [("bsonType", Json.arr [Json.str "bogus", Json.str "bogus2"])] = false
    ∧ hasKeyFields "tsType"
        (objFields (addTsType (.obj [("bsonType", Json.arr [Json.str "bogus", Json.str "bogus2"])])))
        = true := by
  refine ⟨by decide, by decide, by decide⟩

/-- Claim C4: annotation is purely additive.  On any object node, every key
other than the reserved hint key looks up in the annotated node to exactly
the recursively annotated value of its original binding (in particular no
such key is added or dropped), and on an enum node the same holds for the
hint key as well, so only tsType on a non-enum node can be newly added or
overwritten. -/
theorem addTsType_additive :
    ∀ o : List (String × Json),
      (∀ k : String, k ≠ "tsType" →
        lookupJson k (objFields (addTsType (.obj o))) = (lookupJson k o).map addTsType)
      ∧ (hasKeyFields "enum" o = true →
        lookupJson "tsType" (objFields (addTsType (.obj o))) =
          (lookupJson "tsType" o).map addTsType) := by
  intro o
  constructor
  · intro k hk
    have hkb : ("tsType" == k) = false := by
      rw [beq_eq_false_iff_ne]
      exact fun h => hk h.symm
    rw [addTsType_obj]
    by_cases hc : (!hasKeyFields "enum" o
        && truthyHint ((lookupJson "bsonType" o).bind buildTsType)) = true
    · rw [if_pos hc]
      show lookupJson k (insertKey (annotFields o) "tsType" _) = _
      rw [lookup_insertKey_ne k "tsType" _ _ hkb, lookup_annotFields]
    · rw [if_neg hc]
      show lookupJson k (annotFields o) = _
      rw [lookup_annotFields]
  · intro he
    rw [addTsType_obj]
    have hc : (!hasKeyFields "enum" o
        && truthyHint ((lookupJson "bsonType" o).bind buildTsType)) = false := by
      simp [he]
    rw [hc]
    show lookupJson "tsType" (annotFields o) = _
    rw [lookup_annotFields]

/-- Claim C4 witness: additivity evaluated on a concrete node carrying a
bool marker: the bsonType binding survives annotation unchanged. -/
theorem addTsType_additive_w :
    lookupJson "bsonType" (objFields (addTsType (.obj [("bsonType", Json.str "bool")]))) =
      (lookupJson "bsonType" [("bsonType", Json.str "bool")]).map addTsType :=
  (addTsType_additive [("bsonType", Json.str "bool")]).1 "bsonType" (by decide)

/-- Claim C5: the mere presence of an enum key suppresses hint injection:
the annotated node carries a tsType key exactly when the input node already
did, regardless of the enum value and of what the bsonType marker maps
to. -/
theorem addTsType_enum_suppression :
    ∀ o : List (String × Json), hasKeyFields "enum" o = true →
      hasKeyFields "tsType" (objFields (addTsType (.obj o))) = hasKeyFields "tsType" o := by
  intro o he
  rw [addTsType_obj]
  have hc : (!hasKeyFields "enum" o
      && truthyHint ((lookupJson "bsonType" o).bind buildTsType)) = false := by
    simp [he]
  rw [hc]
  show hasKeyFields "tsType" (annotFields o) = _
  rw [hasKey_annotFields]

/-- Claim C5 witness: the enum node of the specification example receives no
hint. -/
theorem addTsType_enum_suppression_w :
    hasKeyFields "tsType"
      (objFields (addTsType (.obj [("bsonType", Json.str "number"),
        ("enum", Json.arr [Json.num 1, Json.num 2, Json.num 3])]))) =
      hasKeyFields "tsType" [("bsonType", Json.str "number"),
        ("enum", Json.arr [Json.num 1, Json.num 2, Json.num 3])] :=
  addTsType_enum_suppression
    [("bsonType", Json.str "number"), ("enum", Json.arr [Json.num 1, Json.num 2, Json.num 3])]
    (by decide)

/-- Claim C7 counterexample: on a node whose preexisting tsType value is an
object holding the decimal marker, annotation overwrites that subtree with a
plain string, so the detector answers differently before and after. -/
theorem hasDecimal128_addTsType_cex :
    hasDecimal128 (addTsType (.obj [("bsonType", Json.str "number"),
        ("tsType", .obj [("bsonType", Json.str "decimal")])])) = false
    ∧ hasDecimal128 (.obj [("bsonType", Json.str "number"),
        ("tsType", .obj [("bsonType", Json.str "decimal")])]) = true := by
  refine ⟨by decide, by decide⟩

/-- Claim C7 witness: commutation evaluated on a concrete decimal-marked
schema without preexisting hint keys. -/
theorem hasDecimal128_addTsType_w :
    hasDecimal128 (addTsType (.obj [("bsonType", Json.str "decimal")])) =
      hasDecimal128 (.obj [("bsonType", Json.str "decimal")]) :=
  hasDecimal128_addTsType (.obj [("bsonType", Json.str "decimal")]) (by decide)

/-- True exactly on string and array markers, the two shapes buildTsType
maps. -/
def isStringOrArray : Json → Bool
  | .str _ => true
  | .arr _ => true
  | _ => false

/-- Claim C10: a bsonType value that is neither a string nor an array maps
to no hint, and the node is rebuilt as the plain value-wise annotation of
its entries: no hint key is attached and every value is still recursed
into.  Totality of the embedding is the no-failure part. -/
theorem addTsType_illTyped_marker :
    ∀ (o : List (String × Json)) (v : Json),
      lookupJson "bsonType" o = some v →
      isStringOrArray v = false →
      buildTsType v = none ∧ addTsType (.obj o) = .obj (annotFields o) := by
  intro o v hl hv
  have hnone : buildTsType v = none := by
    cases v with
    | str s => simp [isStringOrArray] at hv
    | arr xs => simp [isStringOrArray] at hv
    | num n => rfl
    | bool b => rfl
    | null => rfl
    | obj l => rfl
  refine ⟨hnone, ?_⟩
  rw [addTsType_obj, hl]
  show (if !hasKeyFields "enum" o && truthyHint (buildTsType v) then _ else _) = _
  rw [hnone]
  simp [truthyHint]

/-- Claim C10 witness: a numeric marker yields no hint and the node is
rebuilt value-wise. -/
theorem addTsType_illTyped_marker_w :
    buildTsType (Json.num 5) = none
    ∧ addTsType (.obj [("bsonType", Json.num 5), ("a", .obj [])])
        = .obj (annotFields [("bsonType", Json.num 5), ("a", .obj [])]) :=
  addTsType_illTyped_marker [("bsonType", Json.num 5), ("a", .obj [])] (Json.num 5)
    (by decide) (by decide)

theorem hasDecimal128Entry_eq_adj (k : String) (v : Json)
    (ihv : hasDecimal128 v = reachDecimalAdj v) :
    hasDecimal128Entry k v =
      ((k == "bsonType" && (v == Json.str "decimal" || arrayContainsDecimal v))
        || (if k == "bsonType" && isArrJson v then false else reachDecimalAdj v)) := by
  by_cases hk : (k == "bsonType") = true
  · cases v with
    | str s =>
      by_cases hs : (Json.str s == Json.str "decimal") = true <;>
        simp [hasDecimal128Entry, hk, hs, arrayContainsDecimal, isArrJson,
          reachDecimalAdj, isObjectTypeof]
    | num n =>
      simp [hasDecimal128Entry, hk, arrayContainsDecimal, isArrJson, reachDecimalAdj,
        isObjectTypeof, beqJson]
    | bool b =>
      simp [hasDecimal128Entry, hk, arrayContainsDecimal, isArrJson, reachDecimalAdj,
        isObjectTypeof, beqJson]
    | null =>
      simp [hasDecimal128Entry, hk, arrayContainsDecimal, isArrJson, reachDecimalAdj,
        isObjectTypeof, beqJson, hasDecimal128]
    | arr xs =>
      simp [hasDecimal128Entry, hk, arrayContainsDecimal, isArrJson, beqJson]
    | obj l =>
      simp [hasDecimal128Entry, hk, arrayContainsDecimal, isArrJson, beqJson,
        isObjectTypeof, ihv]
  · have hk0 : (k == "bsonType") = false := eq_false_of_ne_true hk
    cases v with
    | str s => simp [hasDecimal128Entry, hk0, reachDecimalAdj, isObjectTypeof]
    | num n => simp [hasDecimal128Entry, hk0, reachDecimalAdj, isObjectTypeof]
    | bool b => simp [hasDecimal128Entry, hk0, reachDecimalAdj, isObjectTypeof]
    | null => simp [hasDecimal128Entry, hk0, reachDecimalAdj, isObjectTypeof, hasDecimal128]
    | arr xs => simp [hasDecimal128Entry, hk0, isObjectTypeof, ihv]
    | obj l => simp [hasDecimal128Entry, hk0, isObjectTypeof, ihv]

theorem hasDecimal128Fields_eq_adj (o : List (String × Json))
    (ih : ∀ p ∈ o, hasDecimal128 p.2 = reachDecimalAdj p.2) :
    hasDecimal128Fields o = (markerHitAny o || reachDecimalAdjVals o) := by
  induction o with
  | nil => rfl
  | cons p rest ihl =>
    cases p with
    | mk k v =>
      have hshuffle : ∀ m a M A : Bool, ((m || a) || (M || A)) = ((m || M) || (a || A)) := by
        decide
      have hrest := ihl (fun q hq => ih q (by simp [hq]))
      rw [hasDecimal128Fields_cons, hasDecimal128Entry_eq_adj k v (ih (k, v) (by simp)), hrest]
      show _ = (markerHitAny ((k, v) :: rest) || reachDecimalAdjVals ((k, v) :: rest))
      rw [show markerHitAny ((k, v) :: rest)
            = ((k == "bsonType" && (v == Json.str "decimal" || arrayContainsDecimal v))
              || markerHitAny rest) from by simp [markerHitAny]]
      rw [show reachDecimalAdjVals ((k, v) :: rest)
            = ((if k == "bsonType" && isArrJson v then false else reachDecimalAdj v)
              || reachDecimalAdjVals rest) from rfl]
      exact hshuffle _ _ _ _

theorem hasDecimal128Arr_eq_adj (xs : List Json)
    (ih : ∀ x ∈ xs, hasDecimal128 x = reachDecimalAdj x) :
    hasDecimal128Arr xs = reachDecimalAdjArr xs := by
  induction xs with
  | nil => rfl
  | cons x rest ihl =>
    show (hasDecimal128 x || hasDecimal128Arr rest) = (reachDecimalAdj x || reachDecimalAdjArr rest)
    rw [ih x (by simp), ihl (fun y hy => ih y (by simp [hy]))]

/-- Claim C6 (amended): the detector returns true exactly when some
reachable object node carries the decimal marker, where reachability
descends through object entry values and array elements at any depth,
except that an array sitting directly under a bsonType key is tested only
for literal membership of "decimal" at its node and is not descended into;
scalars and null always give false. -/
theorem hasDecimal128_eq_reachAdj : ∀ s : Json, hasDecimal128 s = reachDecimalAdj s := by
  intro s
  induction s using Json.indOn with
  | hs s => rfl
  | hn n => rfl
  | hb b => rfl
  | hnull => rfl
  | ha xs ih =>
    show hasDecimal128Arr xs = reachDecimalAdjArr xs
    exact hasDecimal128Arr_eq_adj xs ih
  | ho o ih =>
    show hasDecimal128Fields o = (markerHitAny o || reachDecimalAdjVals o)
    exact hasDecimal128Fields_eq_adj o ih

/-- Claim C6 counterexample: an object node reachable through an array held
directly under a bsonType key carries the decimal marker, yet the detector
answers false, because such arrays are tested only by literal membership and
never descended into. -/
theorem hasDecimal128_eq_reachAdj_cex :
    reachDecimalSpec (.obj [("bsonType", .arr [.obj [("bsonType", Json.str "decimal")]])]) = true
    ∧ hasDecimal128 (.obj [("bsonType", .arr [.obj [("bsonType", Json.str "decimal")]])]) = false := by
  refine ⟨by decide, by decide⟩

theorem charSplit_no_sep (c : Char) :
    ∀ p : List Char, c ∉ p → charSplit c p = [p] := by
  intro p
  induction p with
  | nil => intro _; rfl
  | cons x xs ih =>
    intro h
    have hx : (x == c) = false := by
      rw [beq_eq_false_iff_ne]
      exact fun he => h (he ▸ List.mem_cons_self x xs)
    have hxs : c ∉ xs := fun hm => h (List.mem_cons_of_mem x hm)
    rw [show charSplit c (x :: xs) =
        (match charSplit c xs with
          | [] => [[]]
          | h :: t => if x == c then [] :: h :: t else (x :: h) :: t) from rfl,
      ih hxs]
    simp [hx]

theorem charSplit_sep_append (c : Char) :
    ∀ (p l : List Char), c ∉ p → ∀ h t, charSplit c l = h :: t →
      charSplit c (p ++ l) = (p ++ h) :: t := by
  intro p
  induction p with
  | nil => intro l _ h t hl; simpa using hl
  | cons x xs ih =>
    intro l hmem h t hl
    have hx : (x == c) = false := by
      rw [beq_eq_false_iff_ne]
      exact fun he => hmem (he ▸ List.mem_cons_self x xs)
    have hxs : c ∉ xs := fun hm => hmem (List.mem_cons_of_mem x hm)
    have hrec := ih l hxs h t hl
    show charSplit c (x :: (xs ++ l)) = ((x :: xs) ++ h) :: t
    rw [show charSplit c (x :: (xs ++ l)) =
        (match charSplit c (xs ++ l) with
          | [] => [[]]
          | h :: t => if x == c then [] :: h :: t else (x :: h) :: t) from rfl,
      hrec]
    simp [hx]

theorem charSplit_intercalate (c : Char) :
    ∀ parts : List (List Char), parts ≠ [] → (∀ p ∈ parts, c ∉ p) →
      charSplit c (intercalateChar c parts) = parts := by
  intro parts
  induction parts with
  | nil => intro h; cases h rfl
  | cons p rest ih =>
    intro _ hmem
    cases rest with
    | nil =>
      show charSplit c p = [p]
      exact charSplit_no_sep c p (hmem p (by simp))
    | cons q rest2 =>
      show charSplit c (p ++ c :: intercalateChar c (q :: rest2)) = p :: q :: rest2
      have hrec : charSplit c (intercalateChar c (q :: rest2)) = q :: rest2 :=
        ih (by simp) (fun r hr => hmem r (by simp [hr]))
      have hcons : charSplit c (c :: intercalateChar c (q :: rest2)) = [] :: q :: rest2 := by
        rw [show charSplit c (c :: intercalateChar c (q :: rest2)) =
            (match charSplit c (intercalateChar c (q :: rest2)) with
              | [] => [[]]
              | h :: t => if c == c then [] :: h :: t else (c :: h) :: t) from rfl,
          hrec]
        simp
      have := charSplit_sep_append c p (c :: intercalateChar c (q :: rest2))
        (hmem p (by simp)) [] (q :: rest2) hcons
      simpa using this

theorem toList_eq_data (s : String) : s.toList = s.data := rfl

theorem joinBar_data (l : List (Option String)) :
    (joinBar l).data = intercalateChar '|' (l.map (fun o => (o.getD "").data)) := by
  induction l with
  | nil => rfl
  | cons o rest ih =>
    cases rest with
    | nil => rfl
    | cons o2 rest2 =>
      show (o.getD "" ++ "|" ++ joinBar (o2 :: rest2)).data = _
      rw [String.data_append, String.data_append, ih]
      show ((o.getD "").data ++ ['|']) ++ _ = _
      rw [show intercalateChar '|'
            (((o :: o2 :: rest2).map (fun o => (o.getD "").data)))
          = (o.getD "").data ++ '|' ::
              intercalateChar '|' ((o2 :: rest2).map (fun o => (o.getD "").data)) from rfl]
      simp

theorem buildTsType_str_no_bar (s : String) :
    '|' ∉ ((buildTsType (.str s)).getD "").data := by
  show '|' ∉ ((orNull (tableLookup bsonToTs s)).getD "").data
  simp only [bsonToTs, tableLookup]
  split
  · decide
  · split
    · decide
    · split
      · decide
      · split
        · decide
        · split
          · decide
          · split
            · decide
            · decide

theorem buildTsType_str_eq_decimal128 (s : String) :
    (((buildTsType (.str s)).getD "") = "Decimal128") ↔ s = "decimal" := by
  show (((orNull (tableLookup bsonToTs s)).getD "") = "Decimal128") ↔ s = "decimal"
  simp only [bsonToTs, tableLookup]
  split
  · next h => have hs := (eq_of_beq h).symm; subst hs; decide
  · split
    · next h => have hs := (eq_of_beq h).symm; subst hs; decide
    · split
      · next h => have hs := (eq_of_beq h).symm; subst hs; decide
      · split
        · next h => have hs := (eq_of_beq h).symm; subst hs; decide
        · split
          · next h => have hs := (eq_of_beq h).symm; subst hs; decide
          · split
            · next h => have hs := (eq_of_beq h).symm; subst hs; decide
            · next h1 h2 h3 h4 h5 h6 =>
                constructor
                · intro he; exact absurd he (by decide)
                · intro he
                  subst he
                  exact absurd (by decide) h6

theorem mentionsDecimal_some (t : String) :
    mentionsDecimal (some t) = (charSplit '|' t.data).contains "Decimal128".data := rfl

theorem containsD_map :
    ∀ xs : List Json, (∀ x ∈ xs, ∃ s, x = .str s) →
      (((buildTsTypeList xs).map (fun o => (o.getD "").data)).contains "Decimal128".data)
        = containsStrDecimal xs := by
  intro xs
  induction xs with
  | nil => intro _; rfl
  | cons x rest ih =>
    intro hstr
    obtain ⟨s, hx⟩ := hstr x (by simp)
    subst hx
    show (((buildTsType (.str s) :: buildTsTypeList rest).map
        (fun o => (o.getD "").data)).contains "Decimal128".data)
      = (Json.str s == Json.str "decimal" || containsStrDecimal rest)
    rw [List.map_cons, List.contains_cons, ih (fun y hy => hstr y (by simp [hy]))]
    congr 1
    show ("Decimal128".data == ((buildTsType (.str s)).getD "").data)
      = (Json.str s == Json.str "decimal")
    by_cases hd : s = "decimal"
    · subst hd; decide
    · have h1 : ((buildTsType (.str s)).getD "") ≠ "Decimal128" :=
        fun he => hd ((buildTsType_str_eq_decimal128 s).1 he)
      have hL : ("Decimal128".data == ((buildTsType (.str s)).getD "").data) = false := by
        rw [beq_eq_false_iff_ne]
        exact fun he => h1 (String.ext he.symm)
      have hR : (Json.str s == Json.str "decimal") = false := by
        show (s == "decimal") = false
        rw [beq_eq_false_iff_ne]
        exact hd
      rw [hL, hR]

theorem mentions_join_eq (xs : List Json) (hstr : ∀ x ∈ xs, ∃ s, x = .str s) :
    mentionsDecimal (buildTsType (.arr xs)) = containsStrDecimal xs := by
  cases xs with
  | nil => decide
  | cons x rest =>
    show mentionsDecimal (some (joinBar (buildTsTypeList (x :: rest)))) = _
    rw [mentionsDecimal_some, joinBar_data]
    have hsplit :
        charSplit '|' (intercalateChar '|'
            ((buildTsTypeList (x :: rest)).map (fun o => (o.getD "").data)))
          = (buildTsTypeList (x :: rest)).map (fun o => (o.getD "").data) := by
      apply charSplit_intercalate
      · show ((buildTsType x :: buildTsTypeList rest).map _) ≠ []
        simp
      · intro p hp
        rw [List.mem_map] at hp
        obtain ⟨o, ho, hpo⟩ := hp
        subst hpo
        rw [buildTsTypeList_eq, List.mem_map] at ho
        obtain ⟨y, hy, hyo⟩ := ho
        obtain ⟨s, hys⟩ := hstr y hy
        subst hys
        rw [← hyo]
        exact buildTsType_str_no_bar s
    rw [hsplit]
    exact containsD_map (x :: rest) hstr

theorem mentionsDecimal_str (s : String) :
    mentionsDecimal (buildTsType (.str s)) = (s == "decimal") := by
  by_cases hd : s = "decimal"
  · subst hd; decide
  · have hR : (s == "decimal") = false := by
      rw [beq_eq_false_iff_ne]; exact hd
    rw [hR]
    cases hb : buildTsType (.str s) with
    | none => rfl
    | some t =>
      rw [mentionsDecimal_some]
      have hnb : '|' ∉ t.data := by
        have h0 := buildTsType_str_no_bar s
        rw [hb] at h0
        simpa using h0
      rw [charSplit_no_sep '|' t.data hnb, List.contains_cons]
      have ht : t ≠ "Decimal128" := by
        intro he
        apply hd
        apply (buildTsType_str_eq_decimal128 s).1
        rw [hb]
        simpa using he
      have hf : ("Decimal128".data == t.data) = false := by
        rw [beq_eq_false_iff_ne]
        exact fun he => ht (String.ext he.symm)
      simp [hf]

/-- Claim C3 (amended): TypeMapper and DependencyDetector agree on every
marker value that is a scalar or an array of strings: the hint mentions the
Decimal128 target exactly when the detector fires on a node carrying that
marker.  (On object-valued markers, and on arrays with nested array
elements, the two sides can disagree: the detector recurses into an
object-valued marker while the mapper ignores it, and the mapper flattens
nested arrays while the detector tests only literal membership.) -/
theorem mapper_detector_agree :
    ∀ v : Json, markerFlat v = true →
      mentionsDecimal (buildTsType v) = hasDecimal128 (.obj [("bsonType", v)]) := by
  intro v hv
  have hrhs : hasDecimal128 (.obj [("bsonType", v)]) = hasDecimal128Entry "bsonType" v := by
    show hasDecimal128Fields [("bsonType", v)] = _
    rw [hasDecimal128Fields_cons]
    simp [hasDecimal128Fields]
  rw [hrhs]
  cases v with
  | str s =>
    rw [mentionsDecimal_str]
    by_cases hd : (s == "decimal") = true
    · have hs : s = "decimal" := eq_of_beq hd
      subst hs
      decide
    · have hd0 : (s == "decimal") = false := eq_false_of_ne_true hd
      rw [hd0]
      unfold hasDecimal128Entry
      rw [if_pos (by decide : (("bsonType" : String) == "bsonType") = true),
        show ((Json.str s == Json.str "decimal")) = (s == "decimal") from rfl, hd0]
      simp [isObjectTypeof]
  | num n => rfl
  | bool b => rfl
  | null => rfl
  | arr xs =>
    have hstr : ∀ x ∈ xs, ∃ s, x = .str s := by
      simp only [markerFlat, List.all_eq_true] at hv
      intro x hx
      have hx2 := hv x hx
      cases x with
      | str s => exact ⟨s, rfl⟩
      | num n => exact absurd hx2 Bool.false_ne_true
      | bool b => exact absurd hx2 Bool.false_ne_true
      | null => exact absurd hx2 Bool.false_ne_true
      | arr ys => exact absurd hx2 Bool.false_ne_true
      | obj l => exact absurd hx2 Bool.false_ne_true
    rw [mentions_join_eq xs hstr]
    unfold hasDecimal128Entry
    rw [if_pos (by decide : (("bsonType" : String) == "bsonType") = true),
      show ((Json.arr xs == Json.str "decimal")) = false from rfl]
    simp
  | obj l => simp [markerFlat] at hv

/-- Claim C3 counterexample: on an object-valued marker holding the decimal
marker inside, the hint mentions nothing (the mapper yields no hint for
non-string non-array markers) while the detector fires on a node carrying
that marker, so the agreement fails as universally stated. -/
theorem mapper_detector_agree_cex :
    mentionsDecimal (buildTsType (.obj [("bsonType", Json.str "decimal")])) = false
    ∧ hasDecimal128
        (.obj [("bsonType", Json.obj [("bsonType", Json.str "decimal")])]) = true := by
  refine ⟨rfl, by decide⟩

/-- Claim C3 witness: agreement evaluated on the flat union of bool and
decimal. -/
theorem mapper_detector_agree_w :
    mentionsDecimal (buildTsType (.arr [Json.str "bool", Json.str "decimal"])) =
      hasDecimal128 (.obj [("bsonType", Json.arr [Json.str "bool", Json.str "decimal"])]) :=
  mapper_detector_agree (.arr [Json.str "bool", Json.str "decimal"]) (by decide)

/-- A merged field honors the shallow merge: a provided value overrides, an
absent one keeps the default. -/
def mergesField {α : Type} (provided : Option α) (d r : α) : Prop :=
  (∀ x, provided = some x → r = x) ∧ (provided = none → r = d)

/-- Claim C8: compileBSON hands the external compiler the annotated schema,
an empty root name, and the shallow merge of the caller options over
DEFAULT_OPTIONS, whose banner is the merged banner lines followed by exactly
one Decimal128 import line when and only when the detector fires on the
schema, joined by newlines into a single string. -/
theorem compileBSON_spec :
    ∀ (compileJSON : Json → String → FinalCompileOptions → String)
      (cwd : String) (schema : Json) (p : PartialCompileOptions) (m : CompileOptions),
      m = mergeOptions (DEFAULT_OPTIONS cwd) p →
      compileBSON compileJSON cwd schema p
        = compileJSON (addTsType schema) ""
            (finalCompileOptions m (String.intercalate "\n"
              (m.bannerComment ++ (if hasDecimal128 schema then [decimalImportLine] else []))))
      ∧ mergesField p.refOptions (DEFAULT_OPTIONS cwd).refOptions m.refOptions
      ∧ mergesField p.bannerComment (DEFAULT_OPTIONS cwd).bannerComment m.bannerComment
      ∧ mergesField p.cwd (DEFAULT_OPTIONS cwd).cwd m.cwd
      ∧ mergesField p.declareExternallyReferenced
          (DEFAULT_OPTIONS cwd).declareExternallyReferenced m.declareExternallyReferenced
      ∧ mergesField p.enableConstEnums (DEFAULT_OPTIONS cwd).enableConstEnums m.enableConstEnums
      ∧ mergesField p.ignoreMinAndMaxItems
          (DEFAULT_OPTIONS cwd).ignoreMinAndMaxItems m.ignoreMinAndMaxItems
      ∧ mergesField p.strictIndexSignatures
          (DEFAULT_OPTIONS cwd).strictIndexSignatures m.strictIndexSignatures
      ∧ mergesField p.style (DEFAULT_OPTIONS cwd).style m.style
      ∧ mergesField p.unreachableDefinitions
          (DEFAULT_OPTIONS cwd).unreachableDefinitions m.unreachableDefinitions
      ∧ mergesField p.unknownAny (DEFAULT_OPTIONS cwd).unknownAny m.unknownAny
      ∧ (hasDecimal128 schema = true →
          String.intercalate "\n"
              (m.bannerComment ++ (if hasDecimal128 schema then [decimalImportLine] else []))
            = String.intercalate "\n" (m.bannerComment ++ [decimalImportLine]))
      ∧ (hasDecimal128 schema = false →
          String.intercalate "\n"
              (m.bannerComment ++ (if hasDecimal128 schema then [decimalImportLine] else []))
            = String.intercalate "\n" m.bannerComment) := by
  intro compileJSON cwd schema p m hm
  subst hm
  refine ⟨rfl, ?_, ?_, ?_, ?_, ?_, ?_, ?_, ?_, ?_, ?_, ?_, ?_⟩
  all_goals first
    | exact ⟨fun x hx => by simp [mergeOptions, hx], fun hn => by simp [mergeOptions, hn]⟩
    | exact fun h => by simp [h]

/-- Claim C8 witness: the orchestrator evaluated with a probe compiler that
returns the banner it was handed, on a decimal schema with one overridden
option field. -/
theorem compileBSON_spec_w :
    compileBSON (fun _ _ o => o.bannerComment) "/" (.obj [("bsonType", Json.str "decimal")])
        { bannerComment := some ["A"] }
      = (fun (_ : Json) (_ : String) (o : FinalCompileOptions) => o.bannerComment)
          (addTsType (.obj [("bsonType", Json.str "decimal")])) ""
          (finalCompileOptions
            (mergeOptions (DEFAULT_OPTIONS "/") { bannerComment := some ["A"] })
            (String.intercalate "\n"
              ((mergeOptions (DEFAULT_OPTIONS "/") { bannerComment := some ["A"] }).bannerComment
                ++ (if hasDecimal128 (.obj [("bsonType", Json.str "decimal")])
                    then [decimalImportLine] else [])))) :=
  (compileBSON_spec (fun _ _ o => o.bannerComment) "/" (.obj [("bsonType", Json.str "decimal")])
    { bannerComment := some ["A"] } _ rfl).1

namespace Config

/-- The validated bannerComment field, a function of its own lookup only. -/
def bannerCommentField (fields : List (String × Json)) : List String :=
  match lookupJson "bannerComment" fields with
  | some (.arr xs) =>
      match allStrings xs with
      | some l => l
      | none => defaultOptions.bannerComment
  | _ => defaultOptions.bannerComment

/-- A validated boolean field, a function of its own lookup only. -/
def boolField (name : String) (d : Bool) (fields : List (String × Json)) : Bool :=
  match lookupJson name fields with
  | some (.bool b) => b
  | _ => d

/-- The validated path field, a function of its own lookup only. -/
def pathField (fields : List (String × Json)) : String :=
  match lookupJson "path" fields with
  | some (.str s) => s
  | _ => defaultOptions.path

/-- The validated env block, a function of its own lookup only, itself
validated name by name. -/
def envField (fields : List (String × Json)) : EnvNames :=
  match lookupJson "env" fields with
  | some (.obj envFields) =>
      { MONGODB_URI :=
          match lookupJson "MONGODB_URI" envFields with
          | some (.str s) => s
          | _ => defaultOptions.env.MONGODB_URI
        MONGODB_DATABASE :=
          match lookupJson "MONGODB_DATABASE" envFields with
          | some (.str s) => s
          | _ => defaultOptions.env.MONGODB_DATABASE }
  | _ => defaultOptions.env

end Config

/-- Claim C9: configuration parsing recovers field by field.  A failed parse
or a non-plain-object config lands on the full defaults; on a plain object
every output field is a function of its own entry alone, replaced by its
individual default when the value has the wrong type; and in particular a
config assigning the number 123 to path keeps the default path while a
sibling well-typed field is still honored. -/
theorem parseConfig_recovers :
    (∀ (jsonParse : String → Except String Json) (config : String) (e : String),
      jsonParse config = .error e → Config.parseConfig jsonParse config = Config.defaultOptions)
    ∧ (∀ j : Json, (match j with | .obj _ => false | _ => true) = true →
        Config.parseConfigJson (.ok j) = Config.defaultOptions)
    ∧ (∀ fields : List (String × Json),
        Config.parseConfigJson (.ok (.obj fields)) =
          { bannerComment := Config.bannerCommentField fields
            enableConstEnums :=
              Config.boolField "enableConstEnums" Config.defaultOptions.enableConstEnums fields
            ignoreMinAndMaxItems :=
              Config.boolField "ignoreMinAndMaxItems" Config.defaultOptions.ignoreMinAndMaxItems fields
            strictIndexSignatures :=
              Config.boolField "strictIndexSignatures" Config.defaultOptions.strictIndexSignatures fields
            unknownAny := Config.boolField "unknownAny" Config.defaultOptions.unknownAny fields
            path := Config.pathField fields
            env := Config.envField fields })
    ∧ Config.parseConfigJson (.ok (.obj [("path", Json.num 123), ("unknownAny", Json.bool false)]))
        = { Config.defaultOptions with unknownAny := false }
    ∧ Config.parseConfigJson (.ok (.obj [("path", Json.num 123)])) = Config.defaultOptions := by
  refine ⟨?_, ?_, ?_, by decide, by decide⟩
  · intro jsonParse config e he
    show Config.parseConfigJson (jsonParse config) = Config.defaultOptions
    rw [he]
    rfl
  · intro j hj
    cases j with
    | obj o => exact absurd hj Bool.false_ne_true
    | str s => rfl
    | num n => rfl
    | bool b => rfl
    | null => rfl
    | arr xs => rfl
  · intro fields
    rfl

/-- Claim C9 witness: a failed parse recovers to the defaults. -/
theorem parseConfig_recovers_w :
    Config.parseConfig (fun _ => .error "bad json") "not json" = Config.defaultOptions :=
  parseConfig_recovers.1 (fun _ => .error "bad json") "not json" "bad json" rfl
